import Mathlib

/-!
Verification of the two regex rewrite scripts in `src/scripts/`
(`fix-megaprompt-tests.py` and `fix-synthesis-tests.py`).

Texts are embedded as `List Char`.  Each regex pattern of the source is a
sequence of deterministic tokens: every greedy character class in the source
patterns (`\s+`, `[^']+`, `\d+`, `[^}]+`, `[^}]*`, `[^\]]+`) is immediately
followed in the pattern by a character outside the class, so greedy matching
with backtracking coincides with maximal munch; the optional group
`( as any)?,` of the synthesis pattern is an ordered alternative
`" as any,"` / `","`, which is equivalent to the backtracking semantics
because the two literals differ at their first character.  `re.sub` is
embedded as the usual leftmost non-overlapping scanner `rsub`.
-/

/-- ASCII whitespace, the characters matched by a Python `\s` on this input. -/
def isWS (c : Char) : Bool :=
  c = ' ' || c = '\t' || c = '\n' || c = '\x0d' || c = '\x0b' || c = '\x0c'

/-- Any character except a single quote, Python `[^']`. -/
def notQuote (c : Char) : Bool := !(c = '\x27')

/-- Any character except a closing brace, Python `[^}]`. -/
def notRBrace (c : Char) : Bool := !(c = '\x7d')

/-- Any character except a closing square bracket, Python `[^\]]`. -/
def notRBracket (c : Char) : Bool := !(c = ']')

/-- Characters of a string literal. -/
def s2l (s : String) : List Char := s.data

/-- One deterministic component of a pattern. -/
inductive Tok where
  | lit : List Char → Tok
  | cls : (Char → Bool) → Tok
  | star : (Char → Bool) → Tok
  | alt : List Char → List Char → Tok

/-- Match a literal prefix, returning the remainder. -/
def litM : List Char → List Char → Option (List Char)
  | [], l => some l
  | _ :: _, [] => none
  | c :: cs, d :: ds => if c = d then litM cs ds else none

/-- Maximal nonempty munch of characters satisfying `p` (Python `X+`). -/
def munch1 (p : Char → Bool) : List Char → Option (List Char × List Char)
  | [] => none
  | c :: t => if p c then some (c :: t.takeWhile p, t.dropWhile p) else none

/-- Run one token, returning the consumed characters and the remainder. -/
def runTok : Tok → List Char → Option (List Char × List Char)
  | Tok.lit s, l =>
    match litM s l with
    | some r => some (s, r)
    | none => none
  | Tok.cls p, l => munch1 p l
  | Tok.star p, l => some (l.takeWhile p, l.dropWhile p)
  | Tok.alt a b, l =>
    match litM a l with
    | some r => some (a, r)
    | none =>
      match litM b l with
      | some r => some (b, r)
      | none => none

/-- Run a token sequence, returning the per-token consumed pieces and the
remainder of the input. -/
def runToks : List Tok → List Char → Option (List (List Char) × List Char)
  | [], l => some ([], l)
  | t :: ts, l =>
    match runTok t l with
    | some (c, r) =>
      match runToks ts r with
      | some (cs, r2) => some (c :: cs, r2)
      | none => none
    | none => none

/-- What a consumed piece looks like for each kind of token. -/
def TokFits : Tok → List Char → Prop
  | Tok.lit s, c => c = s
  | Tok.cls p, c => c ≠ [] ∧ ∀ x ∈ c, p x = true
  | Tok.star p, c => ∀ x ∈ c, p x = true
  | Tok.alt a b, c => c = a ∨ c = b

namespace Mega

/-- Capture groups of the first megaprompt pattern:
group 1 (`\s+` indent), group 3 (`[^']+` extractorId), the digits of
group 4 (`0\.\d+` confidence), group 5 (`\d+` dataPoints), the interior of
group 6 (`\{[^}]+\}` data), group 7 (`\d+` duration). -/
structure Caps where
  indent : List Char
  eid : List Char
  frac : List Char
  dp : List Char
  dataI : List Char
  dur : List Char
deriving DecidableEq, Repr

/-- Capture groups of the second megaprompt pattern (`pattern2`):
indent, extractorId, confidence digits, dataPoints, insights interior,
duration. -/
structure Caps2 where
  indent : List Char
  eid : List Char
  frac : List Char
  dp : List Char
  ins : List Char
  dur : List Char
deriving DecidableEq, Repr

/-- Token sequence of `pattern` in `fix-megaprompt-tests.py`. -/
def pattern : List Tok := [
  Tok.cls isWS,
  Tok.lit (s2l ("\x7b\n")),
  Tok.cls isWS,
  Tok.lit (s2l ("extractorId: \x27")),
  Tok.cls notQuote,
  Tok.lit (s2l ("\x27,\n")),
  Tok.cls isWS,
  Tok.lit (s2l ("confidence: 0.")),
  Tok.cls Char.isDigit,
  Tok.lit (s2l (",\n")),
  Tok.cls isWS,
  Tok.lit (s2l ("dataPoints: ")),
  Tok.cls Char.isDigit,
  Tok.lit (s2l (",\n")),
  Tok.cls isWS,
  Tok.lit (s2l ("data: \x7b")),
  Tok.cls notRBrace,
  Tok.lit (s2l ("\x7d,\n")),
  Tok.cls isWS,
  Tok.lit (s2l ("timestamp: Date.now(),\n")),
  Tok.cls isWS,
  Tok.lit (s2l ("duration: ")),
  Tok.cls Char.isDigit,
  Tok.lit (s2l (",\n")),
  Tok.cls isWS,
  Tok.lit (s2l ("\x7d as ExtractionResult"))]

/-- Matcher for `pattern`: captures, matched span, remainder. -/
def mat (l : List Char) : Option (Caps × List Char × List Char) :=
  match runToks pattern l with
  | some (cs, r) =>
    some (⟨cs.getD 0 [], cs.getD 4 [], cs.getD 8 [], cs.getD 12 [],
           cs.getD 16 [], cs.getD 22 []⟩, cs.flatten, r)
  | none => none

/-- The `replacement` callback of `fix-megaprompt-tests.py`, an f-string that
re-nests the captured fields and prefixes every line with the captured
indent. -/
def replacement (c : Caps) : List Char :=
  c.indent ++ s2l ("\x7b\n") ++
  c.indent ++ s2l ("  success: true,\n") ++
  c.indent ++ s2l ("  data: \x7b") ++ c.dataI ++ s2l ("\x7d,\n") ++
  c.indent ++ s2l ("  confidence: \x7b\n") ++
  c.indent ++ s2l ("    overall: 0.") ++ c.frac ++ s2l (",\n") ++
  c.indent ++ s2l ("    dataQuality: 0.") ++ c.frac ++ s2l (",\n") ++
  c.indent ++ s2l ("    sourceCount: ") ++ c.dp ++ s2l (",\n") ++
  c.indent ++ s2l ("  \x7d,\n") ++
  c.indent ++ s2l ("  metadata: \x7b\n") ++
  c.indent ++ s2l ("    extractorId: \x27") ++ c.eid ++ s2l ("\x27,\n") ++
  c.indent ++ s2l ("    taskType: \x27customer_profile\x27 as any,\n") ++
  c.indent ++ s2l ("    model: \x27HAIKU\x27 as any,\n") ++
  c.indent ++ s2l ("    fromCache: false,\n") ++
  c.indent ++ s2l ("    timing: \x7b total: ") ++ c.dur ++ s2l (" \x7d,\n") ++
  c.indent ++ s2l ("    timestamp: Date.now(),\n") ++
  c.indent ++ s2l ("  \x7d,\n") ++
  c.indent ++ s2l ("\x7d as any")

/-- Token sequence of `pattern2` in `fix-megaprompt-tests.py` (the variant
with `data: {}` and a `metadata: { insights: [...] }` line). -/
def pattern2 : List Tok := [
  Tok.cls isWS,
  Tok.lit (s2l ("\x7b\n")),
  Tok.cls isWS,
  Tok.lit (s2l ("extractorId: \x27")),
  Tok.cls notQuote,
  Tok.lit (s2l ("\x27,\n")),
  Tok.cls isWS,
  Tok.lit (s2l ("confidence: 0.")),
  Tok.cls Char.isDigit,
  Tok.lit (s2l (",\n")),
  Tok.cls isWS,
  Tok.lit (s2l ("dataPoints: ")),
  Tok.cls Char.isDigit,
  Tok.lit (s2l (",\n")),
  Tok.cls isWS,
  Tok.lit (s2l ("data: \x7b\x7d,\n")),
  Tok.cls isWS,
  Tok.lit (s2l ("metadata: \x7b insights: [")),
  Tok.cls notRBracket,
  Tok.lit (s2l ("] \x7d,\n")),
  Tok.cls isWS,
  Tok.lit (s2l ("timestamp: Date.now(),\n")),
  Tok.cls isWS,
  Tok.lit (s2l ("duration: ")),
  Tok.cls Char.isDigit,
  Tok.lit (s2l (",\n")),
  Tok.cls isWS,
  Tok.lit (s2l ("\x7d as ExtractionResult"))]

/-- Matcher for `pattern2`. -/
def mat2 (l : List Char) : Option (Caps2 × List Char × List Char) :=
  match runToks pattern2 l with
  | some (cs, r) =>
    some (⟨cs.getD 0 [], cs.getD 4 [], cs.getD 8 [], cs.getD 12 [],
           cs.getD 18 [], cs.getD 24 []⟩, cs.flatten, r)
  | none => none

/-- The `replacement2` callback of `fix-megaprompt-tests.py`. -/
def replacement2 (c : Caps2) : List Char :=
  c.indent ++ s2l ("\x7b\n") ++
  c.indent ++ s2l ("  success: true,\n") ++
  c.indent ++ s2l ("  data: \x7b\x7d,\n") ++
  c.indent ++ s2l ("  confidence: \x7b\n") ++
  c.indent ++ s2l ("    overall: 0.") ++ c.frac ++ s2l (",\n") ++
  c.indent ++ s2l ("    dataQuality: 0.") ++ c.frac ++ s2l (",\n") ++
  c.indent ++ s2l ("    sourceCount: ") ++ c.dp ++ s2l (",\n") ++
  c.indent ++ s2l ("  \x7d,\n") ++
  c.indent ++ s2l ("  metadata: \x7b\n") ++
  c.indent ++ s2l ("    extractorId: \x27") ++ c.eid ++ s2l ("\x27,\n") ++
  c.indent ++ s2l ("    taskType: \x27customer_profile\x27 as any,\n") ++
  c.indent ++ s2l ("    model: \x27HAIKU\x27 as any,\n") ++
  c.indent ++ s2l ("    fromCache: false,\n") ++
  c.indent ++ s2l ("    timing: \x7b total: ") ++ c.dur ++ s2l (" \x7d,\n") ++
  c.indent ++ s2l ("    timestamp: Date.now(),\n") ++
  c.indent ++ s2l ("  \x7d,\n") ++
  c.indent ++ s2l ("\x7d as any")

end Mega

namespace Synth

/-- Capture groups of the pattern in `fix-synthesis-tests.py`:
group 1 (`[^']+` extractorId), the digits of group 2 (`0\.\d+` confidence),
group 3 (the text consumed by `( as any)?,`), group 4 (`\d+` dataPoints),
the interior of group 5 (`\{[^}]*\}` data), group 6 (`\d+` duration). -/
structure Caps where
  eid : List Char
  frac : List Char
  asAny : List Char
  dp : List Char
  dataI : List Char
  dur : List Char
deriving DecidableEq, Repr

/-- Token sequence of `pattern` in `fix-synthesis-tests.py`; the indentation
is part of the literal pattern text (10 and 12 spaces). -/
def pattern : List Tok := [
  Tok.lit (s2l ("          \x7b\n            extractorId: \x27")),
  Tok.cls notQuote,
  Tok.lit (s2l ("\x27,\n            confidence: 0.")),
  Tok.cls Char.isDigit,
  Tok.alt (s2l (" as any,")) (s2l (",")),
  Tok.lit (s2l ("\n            dataPoints: ")),
  Tok.cls Char.isDigit,
  Tok.lit (s2l (",\n            data: \x7b")),
  Tok.star notRBrace,
  Tok.lit (s2l ("\x7d,\n            timestamp: Date.now(),\n            duration: ")),
  Tok.cls Char.isDigit,
  Tok.lit (s2l (",\n          \x7d"))]

/-- Matcher for the synthesis pattern. -/
def mat (l : List Char) : Option (Caps × List Char × List Char) :=
  match runToks pattern l with
  | some (cs, r) =>
    some (⟨cs.getD 1 [], cs.getD 3 [], cs.getD 4 [], cs.getD 6 [],
           cs.getD 8 [], cs.getD 10 []⟩, cs.flatten, r)
  | none => none

/-- The `replacement` template of `fix-synthesis-tests.py` (a backreference
template; group 3 is not referenced). -/
def replacement (c : Caps) : List Char :=
  s2l ("          \x7b\n") ++
  s2l ("            success: true,\n") ++
  s2l ("            data: \x7b") ++ c.dataI ++ s2l ("\x7d,\n") ++
  s2l ("            confidence: \x7b\n") ++
  s2l ("              overall: 0.") ++ c.frac ++ s2l (",\n") ++
  s2l ("              dataQuality: 0.") ++ c.frac ++ s2l (",\n") ++
  s2l ("              sourceCount: ") ++ c.dp ++ s2l (",\n") ++
  s2l ("            \x7d,\n") ++
  s2l ("            metadata: \x7b\n") ++
  s2l ("              extractorId: \x27") ++ c.eid ++ s2l ("\x27,\n") ++
  s2l ("              taskType: \x27customer_profile\x27 as any,\n") ++
  s2l ("              model: \x27HAIKU\x27 as any,\n") ++
  s2l ("              fromCache: false,\n") ++
  s2l ("              timing: \x7b total: ") ++ c.dur ++ s2l (" \x7d,\n") ++
  s2l ("              timestamp: Date.now(),\n") ++
  s2l ("            \x7d,\n") ++
  s2l ("          \x7d as any")

end Synth

/-- Fueled leftmost non-overlapping substitution scanner: at each position try
the matcher; on a match emit the replacement and continue after the matched
span, otherwise keep the character.  This is `re.sub` for patterns that cannot
match the empty string. -/
def rsubF {γ : Type} (mat : List Char → Option (γ × List Char × List Char))
    (repl : γ → List Char) : Nat → List Char → List Char
  | _, [] => []
  | 0, c :: t => c :: t
  | fuel + 1, c :: t =>
    match mat (c :: t) with
    | some (caps, _, rest) => repl caps ++ rsubF mat repl fuel rest
    | none => c :: rsubF mat repl fuel t

/-- `re.sub` of one rule over a whole text. -/
def rsub {γ : Type} (mat : List Char → Option (γ × List Char × List Char))
    (repl : γ → List Char) (l : List Char) : List Char :=
  rsubF mat repl l.length l

/-- The whole-content transformation of `fix-megaprompt-tests.py`: the first
`re.sub` with `pattern`/`replacement`, then the second `re.sub` with
`pattern2`/`replacement2` on its output. -/
def megaFixContent (l : List Char) : List Char :=
  rsub Mega.mat2 Mega.replacement2 (rsub Mega.mat Mega.replacement l)

/-- The whole-content transformation of `fix-synthesis-tests.py`. -/
def synthFixContent (l : List Char) : List Char :=
  rsub Synth.mat Synth.replacement l

/-- Does `hay` start with `needle`? -/
def startsWith : List Char → List Char → Bool
  | [], _ => true
  | _ :: _, [] => false
  | c :: cs, d :: ds => c = d && startsWith cs ds

/-- Does `needle` occur as a contiguous substring of `hay`? -/
def isSub (needle : List Char) : List Char → Bool
  | [] => needle.isEmpty
  | d :: ds => startsWith needle (d :: ds) || isSub needle ds

/-- The extractorId capture of the adversarial input `T0`: quote-free text
that spells out the tail of a flat block. -/
def evilId : List Char := s2l (",\n confidence: 0.5,\n dataPoints: 1,\n data: \x7bx\x7d,\n timestamp: Date.now(),\n duration: 5,\n \x7d as ExtractionResult")

/-- Adversarial input for the first megaprompt rule: a single flat block whose
extractorId capture is `evilId` and whose data capture ends with an
`extractorId: \x27` opener. -/
def T0 : List Char := s2l ("\n \x7b\n extractorId: \x27") ++ evilId ++ s2l ("\x27,\n confidence: 0.9,\n dataPoints: 2,\n data: \x7bx \x7b\n extractorId: \x27\x7d,\n timestamp: Date.now(),\n duration: 7,\n \x7d as ExtractionResult")

/-- Like `evilId` but spelling the tail of the second pattern (`data: \x7b\x7d`
plus an insights line). -/
def evilId2 : List Char := s2l (",\n confidence: 0.5,\n dataPoints: 1,\n data: \x7b\x7d,\n metadata: \x7b insights: [a] \x7d,\n timestamp: Date.now(),\n duration: 5,\n \x7d as ExtractionResult")

/-- Adversarial input for the rule pair of `fix-megaprompt-tests.py`. -/
def T1 : List Char := s2l ("\n \x7b\n extractorId: \x27") ++ evilId2 ++ s2l ("\x27,\n confidence: 0.9,\n dataPoints: 2,\n data: \x7bx \x7b\n extractorId: \x27\x7d,\n timestamp: Date.now(),\n duration: 7,\n \x7d as ExtractionResult")

/-- The single-line literal named by the spec. -/
def L1 : List Char := s2l ("\x7b extractorId: \x27demographics\x27, confidence: 0.85, dataPoints: 3, data: \x7bfoo: 1\x7d, timestamp: Date.now(), duration: 120 \x7d")

/-- The spec literal formatted as the multi-line flat block the megaprompt
script targets. -/
def M1 : List Char := s2l ("\n          \x7b\n            extractorId: \x27demographics\x27,\n            confidence: 0.85,\n            dataPoints: 3,\n            data: \x7bfoo: 1\x7d,\n            timestamp: Date.now(),\n            duration: 120,\n          \x7d as ExtractionResult")

/-- The spec literal formatted as the flat block the synthesis script
targets. -/
def S1 : List Char := s2l ("          \x7b\n            extractorId: \x27demographics\x27,\n            confidence: 0.85,\n            dataPoints: 3,\n            data: \x7bfoo: 1\x7d,\n            timestamp: Date.now(),\n            duration: 120,\n          \x7d")

/-- `S1` with trailing text after the closing brace. -/
def S2 : List Char := S1 ++ s2l (" as ExtractionResult;")

/-- A megaprompt-style flat block whose confidence is written `1.0`. -/
def B10 : List Char := s2l ("\n          \x7b\n            extractorId: \x27demographics\x27,\n            confidence: 1.0,\n            dataPoints: 3,\n            data: \x7bfoo: 1\x7d,\n            timestamp: Date.now(),\n            duration: 120,\n          \x7d as ExtractionResult")

/-- A synthesis-style flat block whose confidence is written `1.0`. -/
def B10S : List Char := s2l ("          \x7b\n            extractorId: \x27demographics\x27,\n            confidence: 1.0,\n            dataPoints: 3,\n            data: \x7bfoo: 1\x7d,\n            timestamp: Date.now(),\n            duration: 120,\n          \x7d")

/-- A megaprompt-style block with empty data and an insights line (the shape
of `pattern2`). -/
def B2 : List Char := s2l ("\n          \x7b\n            extractorId: \x27demographics\x27,\n            confidence: 0.85,\n            dataPoints: 3,\n            data: \x7b\x7d,\n            metadata: \x7b insights: [\x27i1\x27] \x7d,\n            timestamp: Date.now(),\n            duration: 120,\n          \x7d as ExtractionResult")

/-- A megaprompt-style block with empty data and no insights line. -/
def B3 : List Char := s2l ("\n          \x7b\n            extractorId: \x27demographics\x27,\n            confidence: 0.85,\n            dataPoints: 3,\n            data: \x7b\x7d,\n            timestamp: Date.now(),\n            duration: 120,\n          \x7d as ExtractionResult")

/-- A megaprompt-style block whose data payload contains a nested object. -/
def BN : List Char := s2l ("\n          \x7b\n            extractorId: \x27demographics\x27,\n            confidence: 0.85,\n            dataPoints: 3,\n            data: \x7b a: \x7b b: 1 \x7d \x7d,\n            timestamp: Date.now(),\n            duration: 120,\n          \x7d as ExtractionResult")

/-- A synthesis-style block whose data payload contains a nested object. -/
def BNS : List Char := s2l ("          \x7b\n            extractorId: \x27demographics\x27,\n            confidence: 0.85,\n            dataPoints: 3,\n            data: \x7b a: \x7b b: 1 \x7d \x7d,\n            timestamp: Date.now(),\n            duration: 120,\n          \x7d")

/-- Join pieces with a separator (the lines of a replacement template). -/
def joinWith (sep : List Char) : List (List Char) → List Char
  | [] => []
  | [a] => a
  | a :: b :: rest => a ++ sep ++ joinWith sep (b :: rest)

/-- The 17 lines of the `replacement` f-string of `fix-megaprompt-tests.py`,
without their leading indent and without newlines. -/
def Mega.templateLines (c : Mega.Caps) : List (List Char) := [
  s2l ("\x7b"),
  s2l ("  success: true,"),
  s2l ("  data: \x7b") ++ c.dataI ++ s2l ("\x7d,"),
  s2l ("  confidence: \x7b"),
  s2l ("    overall: 0.") ++ c.frac ++ s2l (","),
  s2l ("    dataQuality: 0.") ++ c.frac ++ s2l (","),
  s2l ("    sourceCount: ") ++ c.dp ++ s2l (","),
  s2l ("  \x7d,"),
  s2l ("  metadata: \x7b"),
  s2l ("    extractorId: \x27") ++ c.eid ++ s2l ("\x27,"),
  s2l ("    taskType: \x27customer_profile\x27 as any,"),
  s2l ("    model: \x27HAIKU\x27 as any,"),
  s2l ("    fromCache: false,"),
  s2l ("    timing: \x7b total: ") ++ c.dur ++ s2l (" \x7d,"),
  s2l ("    timestamp: Date.now(),"),
  s2l ("  \x7d,"),
  s2l ("\x7d as any")]

/-- The 17 lines of the `replacement2` f-string of `fix-megaprompt-tests.py`. -/
def Mega.templateLines2 (c : Mega.Caps2) : List (List Char) := [
  s2l ("\x7b"),
  s2l ("  success: true,"),
  s2l ("  data: \x7b\x7d,"),
  s2l ("  confidence: \x7b"),
  s2l ("    overall: 0.") ++ c.frac ++ s2l (","),
  s2l ("    dataQuality: 0.") ++ c.frac ++ s2l (","),
  s2l ("    sourceCount: ") ++ c.dp ++ s2l (","),
  s2l ("  \x7d,"),
  s2l ("  metadata: \x7b"),
  s2l ("    extractorId: \x27") ++ c.eid ++ s2l ("\x27,"),
  s2l ("    taskType: \x27customer_profile\x27 as any,"),
  s2l ("    model: \x27HAIKU\x27 as any,"),
  s2l ("    fromCache: false,"),
  s2l ("    timing: \x7b total: ") ++ c.dur ++ s2l (" \x7d,"),
  s2l ("    timestamp: Date.now(),"),
  s2l ("  \x7d,"),
  s2l ("\x7d as any")]

/-- The errors a script run can end with. -/
inductive ScriptError where
  | fileNotFound
deriving DecidableEq, Repr

/-- A file system: maps each path to the content of the file there, if any. -/
def FileSys : Type := String → Option (List Char)

/-- The hard-coded target path of `fix-megaprompt-tests.py`. -/
def megaFilepath : String := "src/services/v2/synthesis/__tests__/MegaPromptGenerator.test.ts"

/-- The hard-coded target path of `fix-synthesis-tests.py`. -/
def synthFilepath : String := "src/services/v2/synthesis/__tests__/OpusSynthesisService.test.ts"

/-- Run of `fix-megaprompt-tests.py` over a file system: open/read the target
(a missing file raises, leaving the file system untouched), transform the full
content in memory, then write it back to the same path. -/
def runMegaScript (fs : FileSys) : Except ScriptError Unit × FileSys :=
  match fs megaFilepath with
  | none => (Except.error ScriptError.fileNotFound, fs)
  | some content =>
    (Except.ok (), fun p => if p = megaFilepath then some (megaFixContent content) else fs p)

/-- Run of `fix-synthesis-tests.py` over a file system. -/
def runSynthScript (fs : FileSys) : Except ScriptError Unit × FileSys :=
  match fs synthFilepath with
  | none => (Except.error ScriptError.fileNotFound, fs)
  | some content =>
    (Except.ok (), fun p => if p = synthFilepath then some (synthFixContent content) else fs p)

/-- A file system with no files at all. -/
def emptyFS : FileSys := fun _ => none

/-- The captures of the unique `pattern` match inside `T1`. -/
def T1caps : Mega.Caps :=
  ⟨s2l ("\n "), evilId2, s2l ("9"), s2l ("2"), s2l ("x \x7b\n extractorId: \x27"), s2l ("7")⟩

/-- The captures of the unique `pattern` match inside `M1`. -/
def M1caps : Mega.Caps :=
  ⟨s2l ("\n          "), s2l ("demographics"), s2l ("85"), s2l ("3"), s2l ("foo: 1"), s2l ("120")⟩

/-- The captures of the unique synthesis-pattern match inside `S1` and `S2`. -/
def S1caps : Synth.Caps :=
  ⟨s2l ("demographics"), s2l ("85"), s2l (","), s2l ("3"), s2l ("foo: 1"), s2l ("120")⟩

/-- The captures of the unique `pattern2` match inside `B2`. -/
def B2caps : Mega.Caps2 :=
  ⟨s2l ("\n          "), s2l ("demographics"), s2l ("85"), s2l ("3"), s2l ("\x27i1\x27"), s2l ("120")⟩

/-- A matcher only reports spans that are a nonempty prefix of its input. -/
def MatSound {γ : Type} (mat : List Char → Option (γ × List Char × List Char)) : Prop :=
  ∀ l c s r, mat l = some (c, s, r) → l = s ++ r ∧ s ≠ []

theorem litM_sound : ∀ (s l r : List Char), litM s l = some r → l = s ++ r := by
  intro s
  induction s with
  | nil =>
    intro l r h
    simp only [litM, Option.some.injEq] at h
    simp [h]
  | cons c cs ih =>
    intro l r h
    cases l with
    | nil => simp [litM] at h
    | cons d ds =>
      simp only [litM] at h
      by_cases hc : c = d
      · rw [if_pos hc] at h
        subst hc
        simpa using ih ds r h
      · rw [if_neg hc] at h
        exact absurd h (by simp)

theorem munch1_sound {p : Char → Bool} {l c r : List Char}
    (h : munch1 p l = some (c, r)) :
    c ≠ [] ∧ (∀ x ∈ c, p x = true) ∧ l = c ++ r := by
  cases l with
  | nil => simp [munch1] at h
  | cons a t =>
    simp only [munch1] at h
    by_cases hp : p a
    · rw [if_pos hp] at h
      simp only [Option.some.injEq, Prod.mk.injEq] at h
      obtain ⟨hc, hr⟩ := h
      subst hc
      subst hr
      refine ⟨by simp, ?_, ?_⟩
      · intro x hx
        rcases List.mem_cons.mp hx with h1 | h2
        · exact h1 ▸ hp
        · exact List.mem_takeWhile_imp h2
      · simp [List.takeWhile_append_dropWhile]
    · rw [if_neg hp] at h
      exact absurd h (by simp)

theorem runTok_sound : ∀ (t : Tok) (l c r : List Char),
    runTok t l = some (c, r) → TokFits t c ∧ l = c ++ r := by
  intro t l c r h
  cases t with
  | lit s =>
    simp only [runTok] at h
    cases hl : litM s l with
    | none => rw [hl] at h; exact absurd h (by simp)
    | some r2 =>
      rw [hl] at h
      simp only [Option.some.injEq, Prod.mk.injEq] at h
      obtain ⟨hc, hr⟩ := h
      subst hc
      subst hr
      exact ⟨rfl, litM_sound _ _ _ hl⟩
  | cls p =>
    obtain ⟨h1, h2, h3⟩ := munch1_sound h
    exact ⟨⟨h1, h2⟩, h3⟩
  | star p =>
    simp only [runTok, Option.some.injEq, Prod.mk.injEq] at h
    obtain ⟨hc, hr⟩ := h
    subst hc
    subst hr
    exact ⟨fun x hx => List.mem_takeWhile_imp hx, by simp [List.takeWhile_append_dropWhile]⟩
  | alt a b =>
    simp only [runTok] at h
    cases ha : litM a l with
    | some r2 =>
      rw [ha] at h
      simp only [Option.some.injEq, Prod.mk.injEq] at h
      obtain ⟨hc, hr⟩ := h
      subst hc
      subst hr
      exact ⟨Or.inl rfl, litM_sound _ _ _ ha⟩
    | none =>
      rw [ha] at h
      cases hb : litM b l with
      | none => rw [hb] at h; exact absurd h (by simp)
      | some r2 =>
        rw [hb] at h
        simp only [Option.some.injEq, Prod.mk.injEq] at h
        obtain ⟨hc, hr⟩ := h
        subst hc
        subst hr
        exact ⟨Or.inr rfl, litM_sound _ _ _ hb⟩

theorem runToks_sound : ∀ (ts : List Tok) (l : List Char) (cs : List (List Char)) (r : List Char),
    runToks ts l = some (cs, r) → List.Forall₂ TokFits ts cs ∧ l = cs.flatten ++ r := by
  intro ts
  induction ts with
  | nil =>
    intro l cs r h
    simp only [runToks, Option.some.injEq, Prod.mk.injEq] at h
    obtain ⟨hc, hr⟩ := h
    subst hc
    subst hr
    exact ⟨List.Forall₂.nil, by simp⟩
  | cons t ts ih =>
    intro l cs r h
    cases ht : runTok t l with
    | none => simp [runToks, ht] at h
    | some pr =>
      obtain ⟨c1, r1⟩ := pr
      cases hts : runToks ts r1 with
      | none => simp [runToks, ht, hts] at h
      | some pr2 =>
        obtain ⟨cs2, r2⟩ := pr2
        simp only [runToks, ht, hts, Option.some.injEq, Prod.mk.injEq] at h
        obtain ⟨hc, hr⟩ := h
        subst hc
        subst hr
        obtain ⟨hf1, he1⟩ := runTok_sound t l c1 r1 ht
        obtain ⟨hf2, he2⟩ := ih r1 cs2 r2 hts
        exact ⟨List.Forall₂.cons hf1 hf2, by simp [he1, he2, List.append_assoc]⟩

theorem forall₂_getD {R : Tok → List Char → Prop} {ts : List Tok} {cs : List (List Char)}
    (h : List.Forall₂ R ts cs) :
    ∀ (i : Nat), i < ts.length → ∀ (d₁ : Tok) (d₂ : List Char), R (ts.getD i d₁) (cs.getD i d₂) := by
  induction h with
  | nil => intro i hi d₁ d₂; simp at hi
  | cons h1 h2 ih =>
    intro i hi d₁ d₂
    cases i with
    | zero => simpa using h1
    | succ n => simpa using ih n (by simpa using hi) d₁ d₂

theorem Mega.mat_inv {l : List Char} {c : Mega.Caps} {s r : List Char}
    (h : Mega.mat l = some (c, s, r)) :
    ∃ cs : List (List Char), runToks Mega.pattern l = some (cs, r) ∧ s = cs.flatten ∧
      c = ⟨cs.getD 0 [], cs.getD 4 [], cs.getD 8 [], cs.getD 12 [],
           cs.getD 16 [], cs.getD 22 []⟩ := by
  cases hr : runToks Mega.pattern l with
  | none => simp [Mega.mat, hr] at h
  | some pr =>
    obtain ⟨cs, r1⟩ := pr
    simp only [Mega.mat, hr, Option.some.injEq, Prod.mk.injEq] at h
    obtain ⟨hc, hs, hrr⟩ := h
    subst hrr
    exact ⟨cs, rfl, hs.symm, hc.symm⟩

theorem Mega.mat2_inv {l : List Char} {c : Mega.Caps2} {s r : List Char}
    (h : Mega.mat2 l = some (c, s, r)) :
    ∃ cs : List (List Char), runToks Mega.pattern2 l = some (cs, r) ∧ s = cs.flatten ∧
      c = ⟨cs.getD 0 [], cs.getD 4 [], cs.getD 8 [], cs.getD 12 [],
           cs.getD 18 [], cs.getD 24 []⟩ := by
  cases hr : runToks Mega.pattern2 l with
  | none => simp [Mega.mat2, hr] at h
  | some pr =>
    obtain ⟨cs, r1⟩ := pr
    simp only [Mega.mat2, hr, Option.some.injEq, Prod.mk.injEq] at h
    obtain ⟨hc, hs, hrr⟩ := h
    subst hrr
    exact ⟨cs, rfl, hs.symm, hc.symm⟩

theorem Synth.matS_inv {l : List Char} {c : Synth.Caps} {s r : List Char}
    (h : Synth.mat l = some (c, s, r)) :
    ∃ cs : List (List Char), runToks Synth.pattern l = some (cs, r) ∧ s = cs.flatten ∧
      c = ⟨cs.getD 1 [], cs.getD 3 [], cs.getD 4 [], cs.getD 6 [],
           cs.getD 8 [], cs.getD 10 []⟩ := by
  cases hr : runToks Synth.pattern l with
  | none => simp [Synth.mat, hr] at h
  | some pr =>
    obtain ⟨cs, r1⟩ := pr
    simp only [Synth.mat, hr, Option.some.injEq, Prod.mk.injEq] at h
    obtain ⟨hc, hs, hrr⟩ := h
    subst hrr
    exact ⟨cs, rfl, hs.symm, hc.symm⟩

theorem Mega.mat_sound {l : List Char} {c : Mega.Caps} {s r : List Char}
    (h : Mega.mat l = some (c, s, r)) : l = s ++ r ∧ s ≠ [] := by
  obtain ⟨cs, hrun, hs, _⟩ := Mega.mat_inv h
  obtain ⟨hfits, heq⟩ := runToks_sound _ _ _ _ hrun
  subst hs
  refine ⟨heq, ?_⟩
  unfold Mega.pattern at hfits
  cases hfits with
  | cons h0 hrest =>
    obtain ⟨hne, -⟩ := h0
    intro hcon
    rw [List.flatten_cons] at hcon
    exact hne (List.append_eq_nil.mp hcon).1

theorem Mega.mat2_sound {l : List Char} {c : Mega.Caps2} {s r : List Char}
    (h : Mega.mat2 l = some (c, s, r)) : l = s ++ r ∧ s ≠ [] := by
  obtain ⟨cs, hrun, hs, -⟩ := Mega.mat2_inv h
  obtain ⟨hfits, heq⟩ := runToks_sound _ _ _ _ hrun
  subst hs
  refine ⟨heq, ?_⟩
  unfold Mega.pattern2 at hfits
  cases hfits with
  | cons h0 hrest =>
    obtain ⟨hne, -⟩ := h0
    intro hcon
    rw [List.flatten_cons] at hcon
    exact hne (List.append_eq_nil.mp hcon).1

theorem Synth.matS_sound {l : List Char} {c : Synth.Caps} {s r : List Char}
    (h : Synth.mat l = some (c, s, r)) : l = s ++ r ∧ s ≠ [] := by
  obtain ⟨cs, hrun, hs, -⟩ := Synth.matS_inv h
  obtain ⟨hfits, heq⟩ := runToks_sound _ _ _ _ hrun
  subst hs
  refine ⟨heq, ?_⟩
  unfold Synth.pattern at hfits
  cases hfits with
  | cons h0 hrest =>
    rw [TokFits] at h0
    intro hcon
    rw [List.flatten_cons, h0] at hcon
    exact absurd (List.append_eq_nil.mp hcon).1 (by simp [s2l])

theorem rsubF_congr_fuel {γ : Type} {mat : List Char → Option (γ × List Char × List Char)}
    {repl : γ → List Char} (hm : MatSound mat) :
    ∀ (f g : Nat) (l : List Char), l.length ≤ f → l.length ≤ g →
      rsubF mat repl f l = rsubF mat repl g l := by
  intro f
  induction f using Nat.strong_induction_on with
  | _ f ih =>
    intro g l hf hg
    cases l with
    | nil => cases f <;> cases g <;> rfl
    | cons a t =>
      cases f with
      | zero => exact absurd hf (by simp)
      | succ f2 =>
        cases g with
        | zero => exact absurd hg (by simp)
        | succ g2 =>
          cases hmat : mat (a :: t) with
          | none =>
            have ht : t.length ≤ f2 := by simpa using hf
            have ht2 : t.length ≤ g2 := by simpa using hg
            simp only [rsubF, hmat]
            rw [ih f2 (Nat.lt_succ_self f2) g2 t ht ht2]
          | some pr =>
            obtain ⟨cp, sp, rest⟩ := pr
            obtain ⟨heq, hne⟩ := hm _ _ _ _ hmat
            have hr : rest.length < t.length + 1 := by
              have := congrArg List.length heq
              simp only [List.length_append, List.length_cons] at this
              have hsp : 0 < sp.length := List.length_pos.mpr hne
              omega
            have h1 : rest.length ≤ f2 := by
              simp only [List.length_cons] at hf
              omega
            have h2 : rest.length ≤ g2 := by
              simp only [List.length_cons] at hg
              omega
            simp only [rsubF, hmat]
            rw [ih f2 (Nat.lt_succ_self f2) g2 rest h1 h2]

theorem rsub_nil {γ : Type} {mat : List Char → Option (γ × List Char × List Char)}
    {repl : γ → List Char} : rsub mat repl [] = [] := rfl

theorem rsub_nomatch {γ : Type} {mat : List Char → Option (γ × List Char × List Char)}
    {repl : γ → List Char} {a : Char} {t : List Char} (h : mat (a :: t) = none) :
    rsub mat repl (a :: t) = a :: rsub mat repl t := by
  simp [rsub, rsubF, h]

theorem rsub_match {γ : Type} {mat : List Char → Option (γ × List Char × List Char)}
    {repl : γ → List Char} (hm : MatSound mat) {l : List Char} {c : γ} {s r : List Char}
    (h : mat l = some (c, s, r)) :
    rsub mat repl l = repl c ++ rsub mat repl r := by
  obtain ⟨heq, hne⟩ := hm _ _ _ _ h
  cases hl : l with
  | nil =>
    rw [hl] at heq
    exact absurd ((List.append_eq_nil.mp heq.symm).1) hne
  | cons a t =>
    subst hl
    have hr : r.length ≤ t.length := by
      have := congrArg List.length heq
      simp only [List.length_append, List.length_cons] at this
      have hsp : 0 < s.length := List.length_pos.mpr hne
      omega
    show rsubF mat repl (t.length + 1) (a :: t) = _
    simp only [rsubF, h]
    rw [rsubF_congr_fuel hm t.length r.length r hr (Nat.le_refl _)]
    rfl

theorem rsub_frame_aux {γ : Type} {mat : List Char → Option (γ × List Char × List Char)}
    {repl : γ → List Char} (hm : MatSound mat) :
    ∀ (n : Nat) (l : List Char), l.length ≤ n →
      ∃ (ps : List (List Char × List Char × γ)) (tl : List Char),
        l = ps.foldr (fun p acc => p.1 ++ p.2.1 ++ acc) tl ∧
        rsub mat repl l = ps.foldr (fun p acc => p.1 ++ repl p.2.2 ++ acc) tl ∧
        ∀ p ∈ ps, ∃ rr, mat (p.2.1 ++ rr) = some (p.2.2, p.2.1, rr) := by
  intro n
  induction n with
  | zero =>
    intro l hl
    have : l = [] := List.eq_nil_of_length_eq_zero (Nat.le_zero.mp hl)
    subst this
    exact ⟨[], [], by simp, by simp [rsub_nil], by simp⟩
  | succ n ih =>
    intro l hl
    cases l with
    | nil => exact ⟨[], [], by simp, by simp [rsub_nil], by simp⟩
    | cons a t =>
      cases hmat : mat (a :: t) with
      | some pr =>
        obtain ⟨cp, sp, rest⟩ := pr
        obtain ⟨heq, hne⟩ := hm _ _ _ _ hmat
        have hrest : rest.length ≤ n := by
          have := congrArg List.length heq
          simp only [List.length_append, List.length_cons] at this
          have hsp : 0 < sp.length := List.length_pos.mpr hne
          simp only [List.length_cons] at hl
          omega
        obtain ⟨ps, tl, h1, h2, h3⟩ := ih rest hrest
        refine ⟨([], sp, cp) :: ps, tl, ?_, ?_, ?_⟩
        · simp only [List.foldr_cons, List.nil_append]
          rw [← h1]
          exact heq
        · rw [rsub_match hm hmat, h2]
          simp
        · intro p hp
          rcases List.mem_cons.mp hp with hp1 | hp2
          · subst hp1
            exact ⟨rest, heq ▸ hmat⟩
          · exact h3 p hp2
      | none =>
        have ht : t.length ≤ n := by simpa using hl
        obtain ⟨ps, tl, h1, h2, h3⟩ := ih t ht
        cases ps with
        | nil =>
          simp only [List.foldr_nil] at h1 h2
          refine ⟨[], a :: tl, ?_, ?_, by simp⟩
          · simp [h1]
          · rw [rsub_nomatch hmat, h2]
            simp
        | cons p ps2 =>
          refine ⟨(a :: p.1, p.2.1, p.2.2) :: ps2, tl, ?_, ?_, ?_⟩
          · simp only [List.foldr_cons] at h1 ⊢
            rw [List.cons_append, List.cons_append, ← h1]
          · simp only [List.foldr_cons] at h2 ⊢
            rw [rsub_nomatch hmat, h2]
            simp
          · intro q hq
            rcases List.mem_cons.mp hq with hq1 | hq2
            · subst hq1
              exact h3 p (List.mem_cons_self p ps2)
            · exact h3 q (List.mem_cons_of_mem p hq2)

theorem rsub_frame {γ : Type} {mat : List Char → Option (γ × List Char × List Char)}
    {repl : γ → List Char} (hm : MatSound mat) (l : List Char) :
    ∃ (ps : List (List Char × List Char × γ)) (tl : List Char),
      l = ps.foldr (fun p acc => p.1 ++ p.2.1 ++ acc) tl ∧
      rsub mat repl l = ps.foldr (fun p acc => p.1 ++ repl p.2.2 ++ acc) tl ∧
      ∀ p ∈ ps, ∃ rr, mat (p.2.1 ++ rr) = some (p.2.2, p.2.1, rr) :=
  rsub_frame_aux hm l.length l (Nat.le_refl _)

theorem rsub_id_of_no_match {γ : Type} {mat : List Char → Option (γ × List Char × List Char)}
    {repl : γ → List Char} :
    ∀ l : List Char, (∀ l₁ l₂ : List Char, l = l₁ ++ l₂ → mat l₂ = none) →
      rsub mat repl l = l := by
  intro l
  induction l with
  | nil => intro _; rfl
  | cons a t ih =>
    intro h
    rw [rsub_nomatch (h [] (a :: t) rfl)]
    rw [ih fun l₁ l₂ ht => h (a :: l₁) l₂ (by simp [ht])]

theorem flatten_getD_split (cs : List (List Char)) (i : Nat) (h : i < cs.length) :
    cs.flatten = (cs.take i).flatten ++ (cs.getD i [] ++ (cs.drop (i + 1)).flatten) := by
  have hgd : cs.getD i [] = cs[i] := by
    simp [List.getD_eq_getElem?_getD, List.getElem?_eq_getElem h]
  conv_lhs => rw [← List.take_append_drop i cs]
  rw [List.flatten_append, List.drop_eq_getElem_cons h, List.flatten_cons, hgd]

theorem Mega.mat_caps {l : List Char} {c : Mega.Caps} {s r : List Char}
    (h : Mega.mat l = some (c, s, r)) :
    (c.indent ≠ [] ∧ ∀ x ∈ c.indent, isWS x = true) ∧
    (c.eid ≠ [] ∧ ∀ x ∈ c.eid, notQuote x = true) ∧
    (c.frac ≠ [] ∧ ∀ x ∈ c.frac, Char.isDigit x = true) ∧
    (c.dp ≠ [] ∧ ∀ x ∈ c.dp, Char.isDigit x = true) ∧
    (c.dataI ≠ [] ∧ ∀ x ∈ c.dataI, notRBrace x = true) ∧
    (c.dur ≠ [] ∧ ∀ x ∈ c.dur, Char.isDigit x = true) := by
  obtain ⟨cs, hrun, hs, hc⟩ := Mega.mat_inv h
  obtain ⟨hfits, -⟩ := runToks_sound _ _ _ _ hrun
  have hlen : Mega.pattern.length = 26 := rfl
  have g0 := forall₂_getD hfits 0 (by omega) (Tok.lit []) []
  have g4 := forall₂_getD hfits 4 (by omega) (Tok.lit []) []
  have g8 := forall₂_getD hfits 8 (by omega) (Tok.lit []) []
  have g12 := forall₂_getD hfits 12 (by omega) (Tok.lit []) []
  have g16 := forall₂_getD hfits 16 (by omega) (Tok.lit []) []
  have g22 := forall₂_getD hfits 22 (by omega) (Tok.lit []) []
  rw [show Mega.pattern.getD 0 (Tok.lit []) = Tok.cls isWS from rfl, TokFits] at g0
  rw [show Mega.pattern.getD 4 (Tok.lit []) = Tok.cls notQuote from rfl, TokFits] at g4
  rw [show Mega.pattern.getD 8 (Tok.lit []) = Tok.cls Char.isDigit from rfl, TokFits] at g8
  rw [show Mega.pattern.getD 12 (Tok.lit []) = Tok.cls Char.isDigit from rfl, TokFits] at g12
  rw [show Mega.pattern.getD 16 (Tok.lit []) = Tok.cls notRBrace from rfl, TokFits] at g16
  rw [show Mega.pattern.getD 22 (Tok.lit []) = Tok.cls Char.isDigit from rfl, TokFits] at g22
  subst hc
  exact ⟨g0, g4, g8, g12, g16, g22⟩

theorem Mega.mat2_caps {l : List Char} {c : Mega.Caps2} {s r : List Char}
    (h : Mega.mat2 l = some (c, s, r)) :
    (c.indent ≠ [] ∧ ∀ x ∈ c.indent, isWS x = true) ∧
    (c.eid ≠ [] ∧ ∀ x ∈ c.eid, notQuote x = true) ∧
    (c.frac ≠ [] ∧ ∀ x ∈ c.frac, Char.isDigit x = true) ∧
    (c.dp ≠ [] ∧ ∀ x ∈ c.dp, Char.isDigit x = true) ∧
    (c.ins ≠ [] ∧ ∀ x ∈ c.ins, notRBracket x = true) ∧
    (c.dur ≠ [] ∧ ∀ x ∈ c.dur, Char.isDigit x = true) := by
  obtain ⟨cs, hrun, hs, hc⟩ := Mega.mat2_inv h
  obtain ⟨hfits, -⟩ := runToks_sound _ _ _ _ hrun
  have hlen : Mega.pattern2.length = 28 := rfl
  have g0 := forall₂_getD hfits 0 (by omega) (Tok.lit []) []
  have g4 := forall₂_getD hfits 4 (by omega) (Tok.lit []) []
  have g8 := forall₂_getD hfits 8 (by omega) (Tok.lit []) []
  have g12 := forall₂_getD hfits 12 (by omega) (Tok.lit []) []
  have g18 := forall₂_getD hfits 18 (by omega) (Tok.lit []) []
  have g24 := forall₂_getD hfits 24 (by omega) (Tok.lit []) []
  rw [show Mega.pattern2.getD 0 (Tok.lit []) = Tok.cls isWS from rfl, TokFits] at g0
  rw [show Mega.pattern2.getD 4 (Tok.lit []) = Tok.cls notQuote from rfl, TokFits] at g4
  rw [show Mega.pattern2.getD 8 (Tok.lit []) = Tok.cls Char.isDigit from rfl, TokFits] at g8
  rw [show Mega.pattern2.getD 12 (Tok.lit []) = Tok.cls Char.isDigit from rfl, TokFits] at g12
  rw [show Mega.pattern2.getD 18 (Tok.lit []) = Tok.cls notRBracket from rfl, TokFits] at g18
  rw [show Mega.pattern2.getD 24 (Tok.lit []) = Tok.cls Char.isDigit from rfl, TokFits] at g24
  subst hc
  exact ⟨g0, g4, g8, g12, g18, g24⟩

theorem Synth.matS_caps {l : List Char} {c : Synth.Caps} {s r : List Char}
    (h : Synth.mat l = some (c, s, r)) :
    (c.eid ≠ [] ∧ ∀ x ∈ c.eid, notQuote x = true) ∧
    (c.frac ≠ [] ∧ ∀ x ∈ c.frac, Char.isDigit x = true) ∧
    (c.asAny = s2l (" as any,") ∨ c.asAny = s2l (",")) ∧
    (c.dp ≠ [] ∧ ∀ x ∈ c.dp, Char.isDigit x = true) ∧
    (∀ x ∈ c.dataI, notRBrace x = true) ∧
    (c.dur ≠ [] ∧ ∀ x ∈ c.dur, Char.isDigit x = true) := by
  obtain ⟨cs, hrun, hs, hc⟩ := Synth.matS_inv h
  obtain ⟨hfits, -⟩ := runToks_sound _ _ _ _ hrun
  have hlen : Synth.pattern.length = 12 := rfl
  have g1 := forall₂_getD hfits 1 (by omega) (Tok.lit []) []
  have g3 := forall₂_getD hfits 3 (by omega) (Tok.lit []) []
  have g4 := forall₂_getD hfits 4 (by omega) (Tok.lit []) []
  have g6 := forall₂_getD hfits 6 (by omega) (Tok.lit []) []
  have g8 := forall₂_getD hfits 8 (by omega) (Tok.lit []) []
  have g10 := forall₂_getD hfits 10 (by omega) (Tok.lit []) []
  rw [show Synth.pattern.getD 1 (Tok.lit []) = Tok.cls notQuote from rfl, TokFits] at g1
  rw [show Synth.pattern.getD 3 (Tok.lit []) = Tok.cls Char.isDigit from rfl, TokFits] at g3
  rw [show Synth.pattern.getD 4 (Tok.lit []) =
        Tok.alt (s2l (" as any,")) (s2l (",")) from rfl, TokFits] at g4
  rw [show Synth.pattern.getD 6 (Tok.lit []) = Tok.cls Char.isDigit from rfl, TokFits] at g6
  rw [show Synth.pattern.getD 8 (Tok.lit []) = Tok.star notRBrace from rfl, TokFits] at g8
  rw [show Synth.pattern.getD 10 (Tok.lit []) = Tok.cls Char.isDigit from rfl, TokFits] at g10
  subst hc
  exact ⟨g1, g3, g4, g6, g8, g10⟩

theorem munch1_cons_pos {p : Char → Bool} {a : Char} {l : List Char} (h : p a = true) :
    munch1 p (a :: l) = some (a :: l.takeWhile p, l.dropWhile p) := by
  simp [munch1, h]

set_option maxRecDepth 4000 in
theorem Mega.mat_dead_repl (c : Mega.Caps) (hw : ∀ x ∈ c.indent, isWS x = true)
    (s : List Char) : Mega.mat (Mega.replacement c ++ s) = none := by
  have hrun : runToks Mega.pattern (Mega.replacement c ++ s) = none := by
    cases hi : c.indent with
    | nil =>
      simp [Mega.replacement, hi, Mega.pattern, runToks, runTok, munch1, s2l, isWS]
    | cons a t =>
      have ha : isWS a = true := hw a (by rw [hi]; exact List.mem_cons_self a t)
      have ht : ∀ x ∈ t, isWS x = true := fun x hx => hw x (by rw [hi]; exact List.mem_cons_of_mem a hx)
      simp [Mega.replacement, hi, Mega.pattern, runToks, runTok, litM, s2l, isWS,
            munch1_cons_pos ha, List.takeWhile_append_of_pos ht, List.dropWhile_append_of_pos ht]
  simp [Mega.mat, hrun]

set_option maxRecDepth 4000 in
theorem Mega.mat2_dead_repl (c : Mega.Caps) (hw : ∀ x ∈ c.indent, isWS x = true)
    (s : List Char) : Mega.mat2 (Mega.replacement c ++ s) = none := by
  have hrun : runToks Mega.pattern2 (Mega.replacement c ++ s) = none := by
    cases hi : c.indent with
    | nil =>
      simp [Mega.replacement, hi, Mega.pattern2, runToks, runTok, munch1, s2l, isWS]
    | cons a t =>
      have ha : isWS a = true := hw a (by rw [hi]; exact List.mem_cons_self a t)
      have ht : ∀ x ∈ t, isWS x = true := fun x hx => hw x (by rw [hi]; exact List.mem_cons_of_mem a hx)
      simp [Mega.replacement, hi, Mega.pattern2, runToks, runTok, litM, s2l, isWS,
            munch1_cons_pos ha, List.takeWhile_append_of_pos ht, List.dropWhile_append_of_pos ht]
  simp [Mega.mat2, hrun]

set_option maxRecDepth 4000 in
theorem Mega.mat_dead_repl2 (c : Mega.Caps2) (hw : ∀ x ∈ c.indent, isWS x = true)
    (s : List Char) : Mega.mat (Mega.replacement2 c ++ s) = none := by
  have hrun : runToks Mega.pattern (Mega.replacement2 c ++ s) = none := by
    cases hi : c.indent with
    | nil =>
      simp [Mega.replacement2, hi, Mega.pattern, runToks, runTok, munch1, s2l, isWS]
    | cons a t =>
      have ha : isWS a = true := hw a (by rw [hi]; exact List.mem_cons_self a t)
      have ht : ∀ x ∈ t, isWS x = true := fun x hx => hw x (by rw [hi]; exact List.mem_cons_of_mem a hx)
      simp [Mega.replacement2, hi, Mega.pattern, runToks, runTok, litM, s2l, isWS,
            munch1_cons_pos ha, List.takeWhile_append_of_pos ht, List.dropWhile_append_of_pos ht]
  simp [Mega.mat, hrun]

set_option maxRecDepth 4000 in
theorem Mega.mat2_dead_repl2 (c : Mega.Caps2) (hw : ∀ x ∈ c.indent, isWS x = true)
    (s : List Char) : Mega.mat2 (Mega.replacement2 c ++ s) = none := by
  have hrun : runToks Mega.pattern2 (Mega.replacement2 c ++ s) = none := by
    cases hi : c.indent with
    | nil =>
      simp [Mega.replacement2, hi, Mega.pattern2, runToks, runTok, munch1, s2l, isWS]
    | cons a t =>
      have ha : isWS a = true := hw a (by rw [hi]; exact List.mem_cons_self a t)
      have ht : ∀ x ∈ t, isWS x = true := fun x hx => hw x (by rw [hi]; exact List.mem_cons_of_mem a hx)
      simp [Mega.replacement2, hi, Mega.pattern2, runToks, runTok, litM, s2l, isWS,
            munch1_cons_pos ha, List.takeWhile_append_of_pos ht, List.dropWhile_append_of_pos ht]
  simp [Mega.mat2, hrun]

set_option maxRecDepth 8000 in
set_option maxHeartbeats 2000000 in
theorem Synth.matS_dead_repl (c : Synth.Caps) (s : List Char) :
    Synth.mat (Synth.replacement c ++ s) = none := by
  have hrun : runToks Synth.pattern (Synth.replacement c ++ s) = none := by
    rw [Synth.replacement]
    simp only [List.append_assoc]
    simp [Synth.pattern, runToks, runTok, litM, s2l]
  simp [Synth.mat, hrun]

theorem Mega.matSound : MatSound Mega.mat := fun _ _ _ _ h => Mega.mat_sound h

theorem Mega.mat2Sound : MatSound Mega.mat2 := fun _ _ _ _ h => Mega.mat2_sound h

theorem Synth.matSoundS : MatSound Synth.mat := fun _ _ _ _ h => Synth.matS_sound h

theorem flatten_split_take (cs : List (List Char)) (i : Nat) :
    cs.flatten = (cs.take i).flatten ++ (cs.drop i).flatten := by
  rw [← List.flatten_append, List.take_append_drop]

theorem flatten_drop_split (cs : List (List Char)) (i : Nat) (h : i < cs.length) :
    (cs.drop i).flatten = cs.getD i [] ++ (cs.drop (i + 1)).flatten := by
  rw [List.drop_eq_getElem_cons h, List.flatten_cons]
  congr 1
  simp [List.getD_eq_getElem?_getD, List.getElem?_eq_getElem h]

theorem ends_with_append {α : Type} {y b : List α} (h : ∃ w, y = w ++ b) (x : List α) :
    ∃ v, x ++ y = v ++ b := by
  obtain ⟨w, hw⟩ := h
  exact ⟨x ++ w, by rw [hw, List.append_assoc]⟩

set_option maxRecDepth 8000 in
theorem Mega.replacement_joins (c : Mega.Caps) :
    Mega.replacement c =
      joinWith (s2l ("\n")) ((Mega.templateLines c).map (fun ln => c.indent ++ ln)) := by
  simp [Mega.replacement, Mega.templateLines, joinWith, s2l, List.append_assoc]

set_option maxRecDepth 8000 in
theorem Mega.replacement2_joins (c : Mega.Caps2) :
    Mega.replacement2 c =
      joinWith (s2l ("\n")) ((Mega.templateLines2 c).map (fun ln => c.indent ++ ln)) := by
  simp [Mega.replacement2, Mega.templateLines2, joinWith, s2l, List.append_assoc]

theorem Mega.replacement_takeWhile (c : Mega.Caps) (hw : ∀ x ∈ c.indent, isWS x = true) :
    (Mega.replacement c).takeWhile isWS = c.indent := by
  rw [Mega.replacement]
  simp only [List.append_assoc]
  rw [List.takeWhile_append_of_pos hw]
  simp [s2l, isWS]

theorem Mega.replacement2_takeWhile (c : Mega.Caps2) (hw : ∀ x ∈ c.indent, isWS x = true) :
    (Mega.replacement2 c).takeWhile isWS = c.indent := by
  rw [Mega.replacement2]
  simp only [List.append_assoc]
  rw [List.takeWhile_append_of_pos hw]
  simp [s2l, isWS]

theorem Mega.mat_span_conf {l : List Char} {c : Mega.Caps} {s r : List Char}
    (h : Mega.mat l = some (c, s, r)) :
    ∃ u v, s = u ++ (s2l ("confidence: 0.") ++ (c.frac ++ (s2l (",\n") ++ v))) := by
  obtain ⟨cs, hrun, hs, hc⟩ := Mega.mat_inv h
  obtain ⟨hfits, -⟩ := runToks_sound _ _ _ _ hrun
  have hlen : Mega.pattern.length = 26 := rfl
  have hcslen : cs.length = 26 := by have h2 := hfits.length_eq; omega
  have e7 := forall₂_getD hfits 7 (by omega) (Tok.lit []) []
  have e9 := forall₂_getD hfits 9 (by omega) (Tok.lit []) []
  rw [show Mega.pattern.getD 7 (Tok.lit []) = Tok.lit (s2l ("confidence: 0.")) from rfl,
      TokFits] at e7
  rw [show Mega.pattern.getD 9 (Tok.lit []) = Tok.lit (s2l (",\n")) from rfl, TokFits] at e9
  subst hc
  subst hs
  refine ⟨(cs.take 7).flatten, (cs.drop 10).flatten, ?_⟩
  rw [flatten_split_take cs 7, flatten_drop_split cs 7 (by omega),
      flatten_drop_split cs 8 (by omega), flatten_drop_split cs 9 (by omega), e7, e9]

theorem Mega.mat2_span_conf {l : List Char} {c : Mega.Caps2} {s r : List Char}
    (h : Mega.mat2 l = some (c, s, r)) :
    ∃ u v, s = u ++ (s2l ("confidence: 0.") ++ (c.frac ++ (s2l (",\n") ++ v))) := by
  obtain ⟨cs, hrun, hs, hc⟩ := Mega.mat2_inv h
  obtain ⟨hfits, -⟩ := runToks_sound _ _ _ _ hrun
  have hlen : Mega.pattern2.length = 28 := rfl
  have hcslen : cs.length = 28 := by have h2 := hfits.length_eq; omega
  have e7 := forall₂_getD hfits 7 (by omega) (Tok.lit []) []
  have e9 := forall₂_getD hfits 9 (by omega) (Tok.lit []) []
  rw [show Mega.pattern2.getD 7 (Tok.lit []) = Tok.lit (s2l ("confidence: 0.")) from rfl,
      TokFits] at e7
  rw [show Mega.pattern2.getD 9 (Tok.lit []) = Tok.lit (s2l (",\n")) from rfl, TokFits] at e9
  subst hc
  subst hs
  refine ⟨(cs.take 7).flatten, (cs.drop 10).flatten, ?_⟩
  rw [flatten_split_take cs 7, flatten_drop_split cs 7 (by omega),
      flatten_drop_split cs 8 (by omega), flatten_drop_split cs 9 (by omega), e7, e9]

theorem Synth.matS_span_conf {l : List Char} {c : Synth.Caps} {s r : List Char}
    (h : Synth.mat l = some (c, s, r)) :
    ∃ u v, s = u ++ (s2l ("confidence: 0.") ++ (c.frac ++ (c.asAny ++ v))) := by
  obtain ⟨cs, hrun, hs, hc⟩ := Synth.matS_inv h
  obtain ⟨hfits, -⟩ := runToks_sound _ _ _ _ hrun
  have hlen : Synth.pattern.length = 12 := rfl
  have hcslen : cs.length = 12 := by have h2 := hfits.length_eq; omega
  have e2 := forall₂_getD hfits 2 (by omega) (Tok.lit []) []
  rw [show Synth.pattern.getD 2 (Tok.lit []) =
        Tok.lit (s2l ("\x27,\n            confidence: 0.")) from rfl, TokFits] at e2
  subst hc
  subst hs
  refine ⟨(cs.take 2).flatten ++ s2l ("\x27,\n            "), (cs.drop 5).flatten, ?_⟩
  rw [flatten_split_take cs 2, flatten_drop_split cs 2 (by omega),
      flatten_drop_split cs 3 (by omega), flatten_drop_split cs 4 (by omega), e2]
  rw [show s2l ("\x27,\n            confidence: 0.") =
        s2l ("\x27,\n            ") ++ s2l ("confidence: 0.") from rfl]
  simp [List.append_assoc]

theorem Mega.mat_span_data {l : List Char} {c : Mega.Caps} {s r : List Char}
    (h : Mega.mat l = some (c, s, r)) :
    ∃ u v, s = u ++ (s2l ("data: \x7b") ++ (c.dataI ++ (s2l ("\x7d,\n") ++ v))) := by
  obtain ⟨cs, hrun, hs, hc⟩ := Mega.mat_inv h
  obtain ⟨hfits, -⟩ := runToks_sound _ _ _ _ hrun
  have hlen : Mega.pattern.length = 26 := rfl
  have hcslen : cs.length = 26 := by have h2 := hfits.length_eq; omega
  have e15 := forall₂_getD hfits 15 (by omega) (Tok.lit []) []
  have e17 := forall₂_getD hfits 17 (by omega) (Tok.lit []) []
  rw [show Mega.pattern.getD 15 (Tok.lit []) = Tok.lit (s2l ("data: \x7b")) from rfl,
      TokFits] at e15
  rw [show Mega.pattern.getD 17 (Tok.lit []) = Tok.lit (s2l ("\x7d,\n")) from rfl, TokFits] at e17
  subst hc
  subst hs
  refine ⟨(cs.take 15).flatten, (cs.drop 18).flatten, ?_⟩
  rw [flatten_split_take cs 15, flatten_drop_split cs 15 (by omega),
      flatten_drop_split cs 16 (by omega), flatten_drop_split cs 17 (by omega), e15, e17]

theorem Synth.mat_span_end {l : List Char} {c : Synth.Caps} {s r : List Char}
    (h : Synth.mat l = some (c, s, r)) :
    ∃ u, s = u ++ s2l (",\n          \x7d") := by
  obtain ⟨cs, hrun, hs, hc⟩ := Synth.matS_inv h
  obtain ⟨hfits, -⟩ := runToks_sound _ _ _ _ hrun
  have hlen : Synth.pattern.length = 12 := rfl
  have hcslen : cs.length = 12 := by have h2 := hfits.length_eq; omega
  have e11 := forall₂_getD hfits 11 (by omega) (Tok.lit []) []
  rw [show Synth.pattern.getD 11 (Tok.lit []) = Tok.lit (s2l (",\n          \x7d")) from rfl,
      TokFits] at e11
  subst hs
  refine ⟨(cs.take 11).flatten, ?_⟩
  rw [flatten_split_take cs 11, flatten_drop_split cs 11 (by omega), e11,
      show cs.drop 12 = [] from by rw [show (12 : Nat) = cs.length from hcslen.symm]; exact List.drop_length cs]
  simp

theorem Synth.replacement_ends (c : Synth.Caps) :
    ∃ v, Synth.replacement c = v ++ s2l ("\x7d as any") := by
  rw [Synth.replacement]
  repeat apply ends_with_append
  exact ⟨s2l ("          "), rfl⟩

set_option maxRecDepth 100000 in
set_option maxHeartbeats 4000000 in
/-- C1 counterexample: on the single-line literal input exactly as written in
the claim, both scripts return the input unchanged and the output contains no
nested structure at all, because both patterns only match the multi-line flat
shape. -/
theorem C1_literal_input_unchanged :
    megaFixContent L1 = L1 ∧ synthFixContent L1 = L1 ∧
    isSub (s2l ("metadata: \x7b")) (megaFixContent L1) = false ∧
    isSub (s2l ("overall: 0.85")) (synthFixContent L1) = false := by
  decide

set_option maxRecDepth 100000 in
set_option maxHeartbeats 4000000 in
/-- C1 (amended): for the claim's field values formatted as the multi-line
flat block each script targets, the rewritten output contains the nested
structure: `metadata` holds `extractorId: 'demographics'`, `confidence`
holds `overall: 0.85` and `sourceCount: 3`, `metadata.timing.total` is
`120`, and the original data payload `{foo: 1}` appears unchanged inside the
new `data` field. -/
theorem C1_capture_fidelity :
    isSub (s2l ("extractorId: \x27demographics\x27")) (megaFixContent M1) = true ∧
    isSub (s2l ("overall: 0.85,")) (megaFixContent M1) = true ∧
    isSub (s2l ("sourceCount: 3,")) (megaFixContent M1) = true ∧
    isSub (s2l ("timing: \x7b total: 120 \x7d")) (megaFixContent M1) = true ∧
    isSub (s2l ("data: \x7bfoo: 1\x7d,")) (megaFixContent M1) = true ∧
    isSub (s2l ("metadata: \x7b")) (megaFixContent M1) = true ∧
    isSub (s2l ("extractorId: \x27demographics\x27")) (synthFixContent S1) = true ∧
    isSub (s2l ("overall: 0.85,")) (synthFixContent S1) = true ∧
    isSub (s2l ("sourceCount: 3,")) (synthFixContent S1) = true ∧
    isSub (s2l ("timing: \x7b total: 120 \x7d")) (synthFixContent S1) = true ∧
    isSub (s2l ("data: \x7bfoo: 1\x7d,")) (synthFixContent S1) = true ∧
    isSub (s2l ("metadata: \x7b")) (synthFixContent S1) = true := by
  decide

/-- C2: for every input text and each of the three rules, the substitution
decomposes the input into unmatched segments interleaved with matched spans;
the output keeps every unmatched segment byte-identical and replaces exactly
the matched spans by their replacements. -/
theorem C2_frame_effect :
    (∀ l : List Char, ∃ (ps : List (List Char × List Char × Mega.Caps)) (tl : List Char),
      l = ps.foldr (fun p acc => p.1 ++ p.2.1 ++ acc) tl ∧
      rsub Mega.mat Mega.replacement l =
        ps.foldr (fun p acc => p.1 ++ Mega.replacement p.2.2 ++ acc) tl ∧
      ∀ p ∈ ps, ∃ rr, Mega.mat (p.2.1 ++ rr) = some (p.2.2, p.2.1, rr)) ∧
    (∀ l : List Char, ∃ (ps : List (List Char × List Char × Mega.Caps2)) (tl : List Char),
      l = ps.foldr (fun p acc => p.1 ++ p.2.1 ++ acc) tl ∧
      rsub Mega.mat2 Mega.replacement2 l =
        ps.foldr (fun p acc => p.1 ++ Mega.replacement2 p.2.2 ++ acc) tl ∧
      ∀ p ∈ ps, ∃ rr, Mega.mat2 (p.2.1 ++ rr) = some (p.2.2, p.2.1, rr)) ∧
    (∀ l : List Char, ∃ (ps : List (List Char × List Char × Synth.Caps)) (tl : List Char),
      l = ps.foldr (fun p acc => p.1 ++ p.2.1 ++ acc) tl ∧
      rsub Synth.mat Synth.replacement l =
        ps.foldr (fun p acc => p.1 ++ Synth.replacement p.2.2 ++ acc) tl ∧
      ∀ p ∈ ps, ∃ rr, Synth.mat (p.2.1 ++ rr) = some (p.2.2, p.2.1, rr)) :=
  ⟨rsub_frame Mega.matSound, rsub_frame Mega.mat2Sound, rsub_frame Synth.matSoundS⟩

/-- C2 witness: the frame decomposition applied to the concrete block `M1`. -/
theorem C2_frame_effect_witness :
    ∃ (ps : List (List Char × List Char × Mega.Caps)) (tl : List Char),
      M1 = ps.foldr (fun p acc => p.1 ++ p.2.1 ++ acc) tl ∧
      rsub Mega.mat Mega.replacement M1 =
        ps.foldr (fun p acc => p.1 ++ Mega.replacement p.2.2 ++ acc) tl ∧
      ∀ p ∈ ps, ∃ rr, Mega.mat (p.2.1 ++ rr) = some (p.2.2, p.2.1, rr) :=
  C2_frame_effect.1 M1

/-- C3: if a rule's pattern matches at no position of the input (no suffix of
the input starts with a match), the substitution returns the input unchanged
byte-for-byte, and no error is possible since the transformation is a total
function. -/
theorem C3_zero_match_passthrough {γ : Type}
    (mat : List Char → Option (γ × List Char × List Char)) (repl : γ → List Char)
    (l : List Char) (h : ∀ l₂ ∈ l.tails, mat l₂ = none) : rsub mat repl l = l := by
  apply rsub_id_of_no_match
  intro l₁ l₂ hsplit
  exact h l₂ ((List.mem_tails l₂ l).mpr ⟨l₁, hsplit.symm⟩)

set_option maxRecDepth 10000 in
/-- C3 witness: the megaprompt pattern matches nowhere in `hello`, and the
substitution leaves it unchanged. -/
theorem C3_zero_match_passthrough_witness :
    (∀ l₂ ∈ (s2l ("hello")).tails, Mega.mat l₂ = none) ∧
    rsub Mega.mat Mega.replacement (s2l ("hello")) = s2l ("hello") :=
  ⟨by decide, C3_zero_match_passthrough Mega.mat Mega.replacement (s2l ("hello")) (by decide)⟩

set_option maxRecDepth 100000 in
set_option maxHeartbeats 8000000 in
/-- C4 counterexample: on the adversarial input `T0`, whose extractorId
capture spells out the tail of a flat block and whose data capture ends with
an `extractorId: '` opener, the first megaprompt rule matches again inside its
own replacement output, so applying the rewrite twice differs from applying
it once. -/
theorem C4_rewrite_not_idempotent :
    megaFixContent (megaFixContent T0) ≠ megaFixContent T0 ∧
    rsub Mega.mat Mega.replacement (rsub Mega.mat Mega.replacement T0) ≠
      rsub Mega.mat Mega.replacement T0 := by
  decide

set_option maxRecDepth 100000 in
set_option maxHeartbeats 8000000 in
/-- C4 (amended): no rule's pattern matches at the start of a span produced by
its own replacement (for the megaprompt rules, whenever the captured indent is
whitespace, which every match guarantees), and on representative test-fixture
inputs applying the full rewrite twice equals applying it once; however the
pattern can re-match strictly inside the rewritten output when captured fields
smuggle in flat-shaped text, so idempotence does not hold for every input. -/
theorem C4_structure_shift :
    (∀ (c : Mega.Caps) (s : List Char), (∀ x ∈ c.indent, isWS x = true) →
      Mega.mat (Mega.replacement c ++ s) = none) ∧
    (∀ (c : Mega.Caps2) (s : List Char), (∀ x ∈ c.indent, isWS x = true) →
      Mega.mat2 (Mega.replacement2 c ++ s) = none) ∧
    (∀ (c : Synth.Caps) (s : List Char), Synth.mat (Synth.replacement c ++ s) = none) ∧
    megaFixContent (megaFixContent M1) = megaFixContent M1 ∧
    synthFixContent (synthFixContent S1) = synthFixContent S1 :=
  ⟨fun c s hw => Mega.mat_dead_repl c hw s,
   fun c s hw => Mega.mat2_dead_repl2 c hw s,
   fun c s => Synth.matS_dead_repl c s,
   by decide, by decide⟩

set_option maxRecDepth 100000 in
set_option maxHeartbeats 4000000 in
/-- C4 witness: the no-rematch-at-start statements applied at concrete
captures. -/
theorem C4_structure_shift_witness :
    Mega.mat (Mega.replacement M1caps ++ []) = none ∧
    Mega.mat2 (Mega.replacement2 B2caps ++ []) = none ∧
    Synth.mat (Synth.replacement S1caps ++ []) = none :=
  ⟨C4_structure_shift.1 M1caps [] (by decide),
   C4_structure_shift.2.1 B2caps [] (by decide),
   C4_structure_shift.2.2.1 S1caps []⟩

set_option maxRecDepth 100000 in
set_option maxHeartbeats 8000000 in
/-- C5 counterexample: `T1` is rewritten by the first rule into a single
replacement span, the second rule does not match the raw `T1` at all, yet the
second rule does match inside the first rule's replacement output and changes
it — so the second rule can re-match text already rewritten by the first rule
within the same run. -/
theorem C5_second_rule_rematches :
    rsub Mega.mat Mega.replacement T1 = Mega.replacement T1caps ∧
    rsub Mega.mat2 Mega.replacement2 T1 = T1 ∧
    rsub Mega.mat2 Mega.replacement2 (rsub Mega.mat Mega.replacement T1) ≠
      rsub Mega.mat Mega.replacement T1 := by
  decide

/-- C5 (amended): the two megaprompt rules are applied sequentially, the
second operating on the output of the first; the second rule's pattern never
matches at the start of a span produced by the first rule's replacement, but
it can match strictly inside such a span for adversarial captures. -/
theorem C5_sequential_application :
    (∀ l : List Char, megaFixContent l =
      rsub Mega.mat2 Mega.replacement2 (rsub Mega.mat Mega.replacement l)) ∧
    (∀ (c : Mega.Caps) (s : List Char), (∀ x ∈ c.indent, isWS x = true) →
      Mega.mat2 (Mega.replacement c ++ s) = none) :=
  ⟨fun _ => rfl, fun c s hw => Mega.mat2_dead_repl c hw s⟩

set_option maxRecDepth 100000 in
set_option maxHeartbeats 4000000 in
/-- C5 witness: the sequencing fact at `T0` and the no-match-at-start-of-span
fact at concrete captures. -/
theorem C5_sequential_application_witness :
    megaFixContent T0 =
      rsub Mega.mat2 Mega.replacement2 (rsub Mega.mat Mega.replacement T0) ∧
    Mega.mat2 (Mega.replacement M1caps ++ s2l ("x")) = none :=
  ⟨C5_sequential_application.1 T0,
   C5_sequential_application.2 M1caps (s2l ("x")) (by decide)⟩

/-- C6: for every match of either megaprompt rule, the replacement is exactly
the 17 template lines each prefixed by the captured indentation and joined by
newlines, and the leading whitespace of the replacement equals the whitespace
captured immediately before the matched block. -/
theorem C6_indentation_preserved :
    (∀ (l : List Char) (c : Mega.Caps) (s r : List Char), Mega.mat l = some (c, s, r) →
      Mega.replacement c =
        joinWith (s2l ("\n")) ((Mega.templateLines c).map (fun ln => c.indent ++ ln)) ∧
      (Mega.replacement c).takeWhile isWS = c.indent) ∧
    (∀ (l : List Char) (c : Mega.Caps2) (s r : List Char), Mega.mat2 l = some (c, s, r) →
      Mega.replacement2 c =
        joinWith (s2l ("\n")) ((Mega.templateLines2 c).map (fun ln => c.indent ++ ln)) ∧
      (Mega.replacement2 c).takeWhile isWS = c.indent) := by
  constructor
  · intro l c s r h
    exact ⟨Mega.replacement_joins c, Mega.replacement_takeWhile c (Mega.mat_caps h).1.2⟩
  · intro l c s r h
    exact ⟨Mega.replacement2_joins c, Mega.replacement2_takeWhile c (Mega.mat2_caps h).1.2⟩

set_option maxRecDepth 100000 in
set_option maxHeartbeats 4000000 in
/-- C6 witness: the indentation facts at the concrete match of `M1`. -/
theorem C6_indentation_preserved_witness :
    Mega.mat M1 = some (M1caps, M1, []) ∧
    (Mega.replacement M1caps).takeWhile isWS = M1caps.indent :=
  ⟨by decide, (C6_indentation_preserved.1 M1 M1caps M1 [] (by decide)).2⟩

/-- C7: if the hard-coded target path is absent from the file system, each
script stops with a FileNotFound error and the file system is left exactly as
it was — the failure happens on the initial read, before any write. -/
theorem C7_missing_file_fatal (fs : FileSys) :
    (fs megaFilepath = none →
      runMegaScript fs = (Except.error ScriptError.fileNotFound, fs)) ∧
    (fs synthFilepath = none →
      runSynthScript fs = (Except.error ScriptError.fileNotFound, fs)) := by
  constructor
  · intro h
    simp [runMegaScript, h]
  · intro h
    simp [runSynthScript, h]

/-- C7 witness: both scripts fail with FileNotFound on the empty file
system and leave it unchanged. -/
theorem C7_missing_file_fatal_witness :
    runMegaScript emptyFS = (Except.error ScriptError.fileNotFound, emptyFS) ∧
    runSynthScript emptyFS = (Except.error ScriptError.fileNotFound, emptyFS) :=
  ⟨(C7_missing_file_fatal emptyFS).1 rfl, (C7_missing_file_fatal emptyFS).2 rfl⟩

set_option maxRecDepth 100000 in
set_option maxHeartbeats 8000000 in
/-- C8: every matched span of every rule carries a confidence literal of the
exact form `0.` followed by one or more digits (in the synthesis rule
optionally followed by ` as any`), and concrete blocks whose confidence is
written `1.0` are not matched by any rule and pass through byte-identical. -/
theorem C8_confidence_literal_form :
    (∀ (l : List Char) (c : Mega.Caps) (s r : List Char), Mega.mat l = some (c, s, r) →
      (c.frac ≠ [] ∧ ∀ x ∈ c.frac, Char.isDigit x = true) ∧
      ∃ u v, s = u ++ (s2l ("confidence: 0.") ++ (c.frac ++ (s2l (",\n") ++ v)))) ∧
    (∀ (l : List Char) (c : Mega.Caps2) (s r : List Char), Mega.mat2 l = some (c, s, r) →
      (c.frac ≠ [] ∧ ∀ x ∈ c.frac, Char.isDigit x = true) ∧
      ∃ u v, s = u ++ (s2l ("confidence: 0.") ++ (c.frac ++ (s2l (",\n") ++ v)))) ∧
    (∀ (l : List Char) (c : Synth.Caps) (s r : List Char), Synth.mat l = some (c, s, r) →
      (c.frac ≠ [] ∧ ∀ x ∈ c.frac, Char.isDigit x = true) ∧
      (c.asAny = s2l (" as any,") ∨ c.asAny = s2l (",")) ∧
      ∃ u v, s = u ++ (s2l ("confidence: 0.") ++ (c.frac ++ (c.asAny ++ v)))) ∧
    megaFixContent B10 = B10 ∧ synthFixContent B10S = B10S := by
  refine ⟨?_, ?_, ?_, by decide, by decide⟩
  · intro l c s r h
    exact ⟨(Mega.mat_caps h).2.2.1, Mega.mat_span_conf h⟩
  · intro l c s r h
    exact ⟨(Mega.mat2_caps h).2.2.1, Mega.mat2_span_conf h⟩
  · intro l c s r h
    exact ⟨(Synth.matS_caps h).2.1, (Synth.matS_caps h).2.2.1, Synth.matS_span_conf h⟩

set_option maxRecDepth 100000 in
set_option maxHeartbeats 4000000 in
/-- C8 witness: the confidence-form facts at the concrete match of `M1`. -/
theorem C8_confidence_literal_form_witness :
    Mega.mat M1 = some (M1caps, M1, []) ∧
    (M1caps.frac ≠ [] ∧ ∀ x ∈ M1caps.frac, Char.isDigit x = true) ∧
    (∃ u v, M1 = u ++ (s2l ("confidence: 0.") ++ (M1caps.frac ++ (s2l (",\n") ++ v)))) :=
  ⟨by decide, (C8_confidence_literal_form.1 M1 M1caps M1 [] (by decide)).1,
   (C8_confidence_literal_form.1 M1 M1caps M1 [] (by decide)).2⟩

set_option maxRecDepth 100000 in
set_option maxHeartbeats 8000000 in
/-- C9: the data capture of the first megaprompt rule is a brace pair whose
nonempty interior contains no closing brace (the synthesis rule allows an
empty interior, likewise brace-free), so concrete blocks whose data payload
nests an object pass through unchanged; a megaprompt block with empty
`data: \x7b\x7d` and an insights line is rewritten only by the second rule, and
without the insights line by neither. -/
theorem C9_nested_data_untouched :
    (∀ (l : List Char) (c : Mega.Caps) (s r : List Char), Mega.mat l = some (c, s, r) →
      (c.dataI ≠ [] ∧ ∀ x ∈ c.dataI, notRBrace x = true) ∧
      ∃ u v, s = u ++ (s2l ("data: \x7b") ++ (c.dataI ++ (s2l ("\x7d,\n") ++ v)))) ∧
    (∀ (l : List Char) (c : Synth.Caps) (s r : List Char), Synth.mat l = some (c, s, r) →
      ∀ x ∈ c.dataI, notRBrace x = true) ∧
    megaFixContent BN = BN ∧ synthFixContent BNS = BNS ∧
    rsub Mega.mat Mega.replacement B2 = B2 ∧
    rsub Mega.mat2 Mega.replacement2 B2 ≠ B2 ∧
    megaFixContent B3 = B3 := by
  refine ⟨?_, ?_, by decide, by decide, by decide, by decide, by decide⟩
  · intro l c s r h
    exact ⟨(Mega.mat_caps h).2.2.2.2.1, Mega.mat_span_data h⟩
  · intro l c s r h
    exact (Synth.matS_caps h).2.2.2.2.1

set_option maxRecDepth 100000 in
set_option maxHeartbeats 4000000 in
/-- C9 witness: the data-shape facts at the concrete match of `M1`. -/
theorem C9_nested_data_untouched_witness :
    Mega.mat M1 = some (M1caps, M1, []) ∧
    (M1caps.dataI ≠ [] ∧ ∀ x ∈ M1caps.dataI, notRBrace x = true) :=
  ⟨by decide, (C9_nested_data_untouched.1 M1 M1caps M1 [] (by decide)).1⟩

/-- C10: every match of the synthesis pattern ends exactly at the flat block's
closing brace (the span ends with newline, ten spaces and a brace), the text
after the brace is the untouched remainder, the replacement ends with
`\x7d as any`, and the substitution emits the replacement followed by the
substitution of the remainder — so trailing text such as an existing cast
appears directly after the inserted `\x7d as any`. -/
theorem C10_trailing_text_retained (l : List Char) (c : Synth.Caps) (s r : List Char)
    (h : Synth.mat l = some (c, s, r)) :
    l = s ++ r ∧ (∃ u, s = u ++ s2l (",\n          \x7d")) ∧
    (∃ v, Synth.replacement c = v ++ s2l ("\x7d as any")) ∧
    rsub Synth.mat Synth.replacement l =
      Synth.replacement c ++ rsub Synth.mat Synth.replacement r :=
  ⟨(Synth.matS_sound h).1, Synth.mat_span_end h, Synth.replacement_ends c,
   rsub_match Synth.matSoundS h⟩

set_option maxRecDepth 100000 in
set_option maxHeartbeats 8000000 in
/-- C10 witness: on `S2` (the block followed by an ` as ExtractionResult;`
cast) the matcher stops at the closing brace, and the output retains the cast
directly after the inserted `\x7d as any`. -/
theorem C10_trailing_text_retained_witness :
    Synth.mat S2 = some (S1caps, S1, s2l (" as ExtractionResult;")) ∧
    rsub Synth.mat Synth.replacement S2 =
      Synth.replacement S1caps ++ rsub Synth.mat Synth.replacement (s2l (" as ExtractionResult;")) ∧
    isSub (s2l ("\x7d as any as ExtractionResult;")) (synthFixContent S2) = true :=
  ⟨by decide,
   (C10_trailing_text_retained S2 S1caps S1 (s2l (" as ExtractionResult;")) (by decide)).2.2.2,
   by decide⟩

